import Mathlib

/-!
Shallow embedding of the view-model projection layer of the
dag-history-component repository.

Sources embedded:
- src/src/components/History/index.jsx : `isNumber`, `getStateList`,
  `getBranchList`, `renderPlayback`, `onLoadClicked`.
- src/unnamed/part_000 : the presentation-state reducer `reduce`.

JavaScript-value conventions used throughout:
- a JS value that is either `null` or a number is an `Option Int`
  (`none` = null);
- a JS string that may be `undefined` is an `Option String`;
- JS truthiness of a number is `n ≠ 0`; of `null`/`undefined` it is false;
  of a string it is `s ≠ ""`.
The external `DagGraph` collaborator (redux-dag-history) is not part of
this repository; its read API is modelled as record fields, per the
read-only contract of the spec.
-/

namespace DagHistory

/-- Embeds `isNumber = d => !isNaN(d) && d !== null` from
src/src/components/History/index.jsx line 18, applied to values that are
either null or a number: true exactly for non-null numbers. -/
def isNumber (d : Option Int) : Bool := d.isSome

/-- JS truthiness of a null-or-number value: `null` and `0` are falsy. -/
def jsTruthy (d : Option Int) : Bool :=
  match d with
  | none => false
  | some n => n != 0

/-- JS `a || b` where `a` is a possibly-undefined string: falls through to
`b` when `a` is undefined/null or the empty string. -/
def jsOrStr (a : Option String) (b : String) : String :=
  match a with
  | none => b
  | some s => if s = "" then b else s

/-- JS `a || b` where `a` is a (present) string: falls through on `""`. -/
def jsOrStr2 (a : String) (b : String) : String :=
  if a = "" then b else a

/-- Read-only model of the external history-graph collaborator
(redux-dag-history DagGraph). State ids and branch ids are integers.
`depthIndexOf` and `parentOf` may be unresolvable (`none` models the JS
`undefined`/`null` results). `getState` yields the opaque application
state payload of a commit. -/
structure DagGraph where
  currentBranch : Int
  currentStateId : Int
  branches : List Int
  latestOn : Int → Int
  commitPath : Int → List Int
  branchOf : Int → Int
  parentOf : Int → Option Int
  childrenOf : Int → List Int
  depthIndexOf : Int → Int → Option Int
  branchStartDepth : Int → Int
  branchEndDepth : Int → Int
  stateName : Int → String
  getBranchName : Int → String
  getState : Int → Int

/-- Data of a bookmark: `{ stateId, name, data }`; `data.annotation` is
modelled by the field `annot` (possibly undefined). -/
structure Bookmark where
  stateId : Int
  name : String
  annot : Option String
deriving DecidableEq

/-- Embeds `getCurrentCommitPath` (index.jsx lines 20-24). -/
def getCurrentCommitPath (g : DagGraph) : List Int :=
  g.commitPath (g.latestOn g.currentBranch)

/-- One entry of the state-list view model built by `getStateList`. -/
structure StateEntry where
  id : Int
  source : Int
  label : String
  active : Bool
  pinned : Bool
  isSuccessor : Bool
  continuationActive : Bool
  branchType : String
  bookmarked : Bool
  continuationCount : Nat
deriving DecidableEq

/-- Embeds `getStateList(historyGraph, commitPath, bookmarks)`
(index.jsx lines 99-136). `highlightSuccessorsOf` and
`getSourceFromState` are the props read inside the method. -/
def getStateList (g : DagGraph) (commitPath : List Int)
    (bookmarks : List Bookmark) (highlightSuccessorsOf : Option Int)
    (getSourceFromState : Int → Int) : List StateEntry :=
  let activeBranchStartsAt := g.branchStartDepth g.currentBranch
  (commitPath.enum.map fun p =>
    let index := p.1
    let id := p.2
    let state := g.getState id
    let source := getSourceFromState state
    let label := g.stateName id
    let branchType :=
      if (index : Int) < activeBranchStartsAt then "legacy" else "current"
    let bookmarked := (bookmarks.map (fun b => b.stateId)).contains id
    let isSuccessor := isNumber highlightSuccessorsOf &&
      g.parentOf id == highlightSuccessorsOf
    let pinned := highlightSuccessorsOf == some id
    let active := g.currentStateId == id
    { id := id
      source := source
      label := label
      active := active
      pinned := pinned
      isSuccessor := isSuccessor
      continuationActive := some id == highlightSuccessorsOf
      branchType := branchType
      bookmarked := bookmarked
      continuationCount := (g.childrenOf id).length }).reverse

/-- One entry of the branch-list view model built by `getBranchList`.
The `onRename` callback closes over the branch id; it is kept as the pair
it would dispatch. -/
structure BranchEntry where
  id : Int
  active : Bool
  label : String
  activeStateIndex : Option Int
  startsAt : Int
  endsAt : Int
  maxDepth : Int
  branchType : String
  currentBranchStart : Option Nat
  currentBranchEnd : Option Nat
  successorDepth : Option Int
  pinnedStateIndex : Option Int
  onRename : String → Int × String

/-- Embeds the `branchPaths` hash of `getBranchList` (index.jsx lines
152-160): for each branch on the commit path, the first and last path
index at which it appears; absent keys are `none`. -/
def buildBranchPaths (branchPath : List Int) : Int → Option (Nat × Nat) :=
  branchPath.enum.foldl
    (fun acc p => fun b =>
      if b = p.2 then
        match acc p.2 with
        | some se => some (se.1, p.1)
        | none => some (p.1, p.1)
      else acc b)
    (fun _ => none)

/-- Embeds the `selectedSuccessorsByBranch` hash (index.jsx lines
163-169): built only when `isNumber(pinnedState)`; maps the branch of
each child of the pinned state to that child (later children win). -/
def buildSelectedSuccessors (g : DagGraph) (pinnedState : Option Int) :
    Int → Option Int :=
  match pinnedState with
  | none => fun _ => none
  | some p =>
      (g.childrenOf p).foldl
        (fun acc child => fun b =>
          if b = g.branchOf child then some child else acc b)
        (fun _ => none)

/-- Embeds `getSuccessorDepth` (index.jsx lines 171-176):
`successorId ? depthIndexOf(branch, successorId) : null` — note that a
successor id of 0 is JS-falsy and yields null. -/
def getSuccessorDepth (g : DagGraph)
    (selectedSuccessorsByBranch : Int → Option Int) (branch : Int) :
    Option Int :=
  match selectedSuccessorsByBranch branch with
  | some successorId =>
      if successorId ≠ 0 then g.depthIndexOf branch successorId else none
  | none => none

/-- Embeds `getPinnedStateDepth` (index.jsx lines 178-183); when
`pinnedState` is a number, `pinnedStateBranch = branchOf(pinnedState)`. -/
def getPinnedStateDepth (g : DagGraph) (pinnedState : Option Int)
    (branch : Int) : Option Int :=
  match pinnedState with
  | none => none
  | some p =>
      if g.branchOf p = branch then g.depthIndexOf branch p else none

/-- Embeds `branches.sort((a, b) => a - b).reverse()` (index.jsx line
202): a stable ascending numeric sort (the ECMAScript `Array.sort`
contract) followed by reversal. -/
def sortBranches (branches : List Int) : List Int :=
  (branches.insertionSort (fun a b => a ≤ b)).reverse

/-- Embeds the body of `getBranchList` (index.jsx lines 138-231) up to but
excluding the final `.filter`: the mapped branch entries in descending
branch-id order. -/
def getBranchListPre (g : DagGraph) (commitPath : List Int)
    (pinnedState : Option Int) : List BranchEntry :=
  let branchPaths := buildBranchPaths (commitPath.map g.branchOf)
  let selectedSuccessorsByBranch := buildSelectedSuccessors g pinnedState
  let activeStateBranch := g.branchOf g.currentStateId
  let activeStateIndex := g.depthIndexOf activeStateBranch g.currentStateId
  let maxDepth := g.branches.foldl
    (fun m branch =>
      max m (g.branchEndDepth branch - g.branchStartDepth branch)) 0
  (sortBranches g.branches).map fun branch =>
    let startsAt := g.branchStartDepth branch
    let endsAt := g.branchEndDepth branch
    let branchType := if g.currentBranch = branch then "current" else "legacy"
    let label := g.getBranchName branch
    let showActiveStateIndex :=
      g.currentBranch = branch ∨ activeStateBranch = branch
    let myBranchPath := branchPaths branch
    { id := branch
      active := g.currentBranch == branch
      label := label
      activeStateIndex := if showActiveStateIndex then activeStateIndex else none
      startsAt := startsAt
      endsAt := endsAt
      maxDepth := maxDepth
      branchType := branchType
      currentBranchStart := myBranchPath.map (fun se => se.1)
      currentBranchEnd := myBranchPath.map (fun se => se.2)
      successorDepth :=
        if !isNumber pinnedState then none
        else getSuccessorDepth g selectedSuccessorsByBranch branch
      pinnedStateIndex := getPinnedStateDepth g pinnedState branch
      onRename := fun name => (branch, name) }

/-- Embeds `getBranchList` (index.jsx lines 138-238) including the final
`.filter(branch => !pinnedState || branch.active ||
isNumber(branch.pinnedStateIndex) || isNumber(branch.successorDepth))`;
`!pinnedState` is JS truthiness, so null AND 0 both disable filtering. -/
def getBranchList (g : DagGraph) (commitPath : List Int)
    (pinnedState : Option Int) : List BranchEntry :=
  (getBranchListPre g commitPath pinnedState).filter fun branch =>
    !jsTruthy pinnedState || branch.active ||
      branch.pinnedStateIndex.isSome || branch.successorDepth.isSome

/-- Presentation-state shape of the reducer in src/unnamed/part_000. -/
structure ComponentState where
  mainView : String
  branchContainerExpanded : Bool
  highlightSuccessorsOf : Option Int
deriving DecidableEq

/-- Embeds `INITIAL_STATE` of src/unnamed/part_000. -/
def INITIAL_STATE : ComponentState :=
  { mainView := "history"
    branchContainerExpanded := true
    highlightSuccessorsOf := none }

/-- Actions dispatched to the reducer: the three recognised action types
carry their payloads; `other` stands for an action of any other type. -/
inductive Action where
  | selectMainView (payload : String)
  | toggleBranchContainer
  | highlightSuccessors (payload : Int)
  | other (type_ : String)
deriving DecidableEq

/-- Embeds `reduce(state, action)` of src/unnamed/part_000 lines 13-28. -/
def reduce (state : ComponentState) (action : Action) : ComponentState :=
  match action with
  | .selectMainView payload => { state with mainView := payload }
  | .toggleBranchContainer =>
      { state with branchContainerExpanded := !state.branchContainerExpanded }
  | .highlightSuccessors payload =>
      if state.highlightSuccessorsOf = some payload then
        { state with highlightSuccessorsOf := none }
      else
        { state with highlightSuccessorsOf := some payload }
  | .other _ => state

/-- The two commands the forward transport button can dispatch in
playback mode. `onPlayBookmarkStory` is the exit-playback command (it
toggles the story player), `onNextBookmark` advances one bookmark. -/
inductive TransportAction where
  | onPlayBookmarkStory
  | onNextBookmark
deriving DecidableEq

/-- The slide view model produced by `renderPlayback`. -/
structure PlaybackView where
  slideText : String
  isLastSlide : Bool
  forwardAction : TransportAction
deriving DecidableEq

/-- Embeds `renderPlayback` (index.jsx lines 381-413): looks up
`bookmarks[bookmarkPlaybackIndex]` (`none` models the crash on an
out-of-range index), computes `slideText` via the JS `||` chain with the
fixed placeholder, `isLastSlide = bookmarkPlaybackIndex ===
bookmarks.length - 1`, and binds the forward transport action
accordingly. -/
def renderPlayback (bookmarks : List Bookmark)
    (bookmarkPlaybackIndex : Int) : Option PlaybackView :=
  if h : 0 ≤ bookmarkPlaybackIndex ∧
      bookmarkPlaybackIndex.toNat < bookmarks.length then
    let bookmark := bookmarks.get ⟨bookmarkPlaybackIndex.toNat, h.2⟩
    let slideText :=
      jsOrStr bookmark.annot (jsOrStr2 bookmark.name "No Slide Data")
    let isLastSlide :=
      bookmarkPlaybackIndex = (bookmarks.length : Int) - 1
    some
      { slideText := slideText
        isLastSlide := isLastSlide
        forwardAction :=
          if isLastSlide then .onPlayBookmarkStory else .onNextBookmark }
  else
    none

/-- Errors raised by `onLoadClicked`: the missing-collaborator-handler
error of line 77, and the invalid-load-result error of line 81. -/
inductive LoadError where
  | missingCollaboratorHandler
  | invalidLoadResult
deriving DecidableEq

/-- Embeds `onLoadClicked` (index.jsx lines 73-85): when the
`onLoadHistory` handler prop is absent an error is thrown synchronously;
otherwise the handler runs and its (settled) result is checked for JS
truthiness before being handed to `onLoad`. The loaded state graph is
modelled opaquely as an `Int`. -/
def onLoadClicked (onLoadHistory : Option (Unit → Option Int)) :
    Except LoadError Int :=
  match onLoadHistory with
  | none => .error .missingCollaboratorHandler
  | some handler =>
      match handler () with
      | none => .error .invalidLoadResult
      | some state => .ok state

/-! ### State-threaded reads for the mutation-freedom claim

Every call the projection layer makes on the graph collaborator is
modelled as an operation `DagGraph → α × DagGraph` that also returns the
graph the operation leaves behind, so that "the core only reads" is an
actual theorem about the final graph rather than a typing convention. -/

/-- A graph operation returning a value and the graph it leaves behind. -/
def GraphOp (α : Type) : Type := DagGraph → α × DagGraph

/-- Modelled from the spec: the read-only contract of the history-graph
collaborator (spec section 6; the collaborator itself, redux-dag-history,
is not part of this repository). Each listed accessor is a pure read:
it yields its value and leaves the graph unchanged. -/
def readBranches : GraphOp (List Int) := fun g => (g.branches, g)

/-- Modelled from the spec: read of `currentBranch` (spec section 6). -/
def readCurrentBranch : GraphOp Int := fun g => (g.currentBranch, g)

/-- Modelled from the spec: read of `currentStateId` (spec section 6). -/
def readCurrentStateId : GraphOp Int := fun g => (g.currentStateId, g)

/-- Modelled from the spec: read of `branchOf(stateId)` (spec section 6). -/
def readBranchOf (s : Int) : GraphOp Int := fun g => (g.branchOf s, g)

/-- Modelled from the spec: read of `childrenOf(stateId)` (section 6). -/
def readChildrenOf (s : Int) : GraphOp (List Int) :=
  fun g => (g.childrenOf s, g)

/-- Modelled from the spec: read of `depthIndexOf(branch, stateId)`. -/
def readDepthIndexOf (b s : Int) : GraphOp (Option Int) :=
  fun g => (g.depthIndexOf b s, g)

/-- Modelled from the spec: read of `branchStartDepth(branch)`. -/
def readBranchStartDepth (b : Int) : GraphOp Int :=
  fun g => (g.branchStartDepth b, g)

/-- Modelled from the spec: read of `branchEndDepth(branch)`. -/
def readBranchEndDepth (b : Int) : GraphOp Int :=
  fun g => (g.branchEndDepth b, g)

/-- Modelled from the spec: read of `getBranchName(branch)`. -/
def readGetBranchName (b : Int) : GraphOp String :=
  fun g => (g.getBranchName b, g)

/-- Modelled from the spec: read of `latestOn(branch)` (section 6). -/
def readLatestOn (b : Int) : GraphOp Int := fun g => (g.latestOn b, g)

/-- Modelled from the spec: read of `commitPath(stateId)` (section 6). -/
def readCommitPath (s : Int) : GraphOp (List Int) :=
  fun g => (g.commitPath s, g)

/-- Modelled from the spec: read of `parentOf(stateId)` (section 6). -/
def readParentOf (s : Int) : GraphOp (Option Int) :=
  fun g => (g.parentOf s, g)

/-- Modelled from the spec: read of `stateName(stateId)` (section 6). -/
def readStateName (s : Int) : GraphOp String := fun g => (g.stateName s, g)

/-- Modelled from the spec: read of `getState(stateId)`, the opaque
application-state payload of a commit. -/
def readGetState (s : Int) : GraphOp Int := fun g => (g.getState s, g)

/-- Threads a graph operation over a list, collecting the results, the
way `commitPath.map(commit => historyGraph.branchOf(commit))` and the
`forEach` loops of `getBranchList` issue one read per element. -/
def mapOp (f : Int → GraphOp α) : List Int → GraphOp (List α)
  | [] => fun g => ([], g)
  | x :: xs => fun g =>
      let vg := f x g
      let rg := mapOp f xs vg.2
      (vg.1 :: rg.1, rg.2)

/-- State-threaded embedding of `getBranchList` (index.jsx lines
138-238): issues every graph read of the source through `GraphOp`
operations and returns the branch entries together with the graph left
behind by the whole projection pass. -/
def getBranchListOp (commitPath : List Int) (pinnedState : Option Int) :
    GraphOp (List BranchEntry) := fun g0 =>
  let bg := readBranches g0
  let cbg := readCurrentBranch bg.2
  let csg := readCurrentStateId cbg.2
  let bpg := mapOp readBranchOf commitPath csg.2
  let branchPaths := buildBranchPaths bpg.1
  let childg :=
    match pinnedState with
    | some p => readChildrenOf p bpg.2
    | none => ([], bpg.2)
  let succg := mapOp readBranchOf childg.1 childg.2
  let selectedSuccessorsByBranch :=
    (childg.1.zip succg.1).foldl
      (fun acc cb => fun b => if b = cb.2 then some cb.1 else acc b)
      (fun _ => none)
  let asbg := readBranchOf csg.1 succg.2
  let asig := readDepthIndexOf asbg.1 csg.1 asbg.2
  let startsg := mapOp readBranchStartDepth bg.1 asig.2
  let endsg := mapOp readBranchEndDepth bg.1 startsg.2
  let g1 := endsg.2
  let maxDepth := ((startsg.1.zip endsg.1).map
    (fun se => se.2 - se.1)).foldl max 0
  let sorted := sortBranches bg.1
  let entries := sorted.map fun branch =>
    let startsAt := (readBranchStartDepth branch g1).1
    let endsAt := (readBranchEndDepth branch g1).1
    let label := (readGetBranchName branch g1).1
    let showActiveStateIndex := cbg.1 = branch ∨ asbg.1 = branch
    let myBranchPath := branchPaths branch
    let successorDepth :=
      if !isNumber pinnedState then none
      else
        match selectedSuccessorsByBranch branch with
        | some successorId =>
            if successorId ≠ 0 then (readDepthIndexOf branch successorId g1).1
            else none
        | none => none
    let pinnedStateIndex :=
      match pinnedState with
      | none => none
      | some p =>
          if (readBranchOf p g1).1 = branch then
            (readDepthIndexOf branch p g1).1
          else none
    { id := branch
      active := cbg.1 == branch
      label := label
      activeStateIndex := if showActiveStateIndex then asig.1 else none
      startsAt := startsAt
      endsAt := endsAt
      maxDepth := maxDepth
      branchType := if cbg.1 = branch then "current" else "legacy"
      currentBranchStart := myBranchPath.map (fun se => se.1)
      currentBranchEnd := myBranchPath.map (fun se => se.2)
      successorDepth := successorDepth
      pinnedStateIndex := pinnedStateIndex
      onRename := fun name => (branch, name) }
  (entries.filter fun branch =>
    !jsTruthy pinnedState || branch.active ||
      branch.pinnedStateIndex.isSome || branch.successorDepth.isSome, g1)

/-- State-threaded embedding of `getCurrentCommitPath` followed by
`getStateList` reads: returns the graph left behind. -/
def getStateListOp (commitPath : List Int) (bookmarks : List Bookmark)
    (highlightSuccessorsOf : Option Int) (getSourceFromState : Int → Int) :
    GraphOp (List StateEntry) := fun g0 =>
  let cbg := readCurrentBranch g0
  let csg := readCurrentStateId cbg.2
  let absg := readBranchStartDepth cbg.1 csg.2
  let entg := mapOp
    (fun id => fun g =>
      let sg := readGetState id g
      let ng := readStateName id sg.2
      let pg := readParentOf id ng.2
      let cg := readChildrenOf id pg.2
      ((sg.1, ng.1, pg.1, cg.1.length), cg.2))
    commitPath absg.2
  let entries := (commitPath.enum.zip entg.1).map fun pe =>
    let index := pe.1.1
    let id := pe.1.2
    { id := id
      source := getSourceFromState pe.2.1
      label := pe.2.2.1
      active := csg.1 == id
      pinned := highlightSuccessorsOf == some id
      isSuccessor := isNumber highlightSuccessorsOf &&
        pe.2.2.2.1 == highlightSuccessorsOf
      continuationActive := some id == highlightSuccessorsOf
      branchType := if (index : Int) < absg.1 then "legacy" else "current"
      bookmarked := (bookmarks.map (fun b => b.stateId)).contains id
      continuationCount := pe.2.2.2.2 }
  (entries.reverse, entg.2)

/-! ### Concrete inputs used to instantiate the theorems

A small history graph: states 0 (root) and 1 live on branch 0, state 2
(a child of state 1) lives on branch 1; the current branch is 0 and the
current state is 1, so the current commit path is `[0, 1]`. -/

/-- A concrete three-state, two-branch history graph. -/
def exG : DagGraph :=
  { currentBranch := 0
    currentStateId := 1
    branches := [0, 1]
    latestOn := fun b => if b = 0 then 1 else 2
    commitPath := fun s => if s = 1 then [0, 1] else [0, 1, 2]
    branchOf := fun s => if s = 2 then 1 else 0
    parentOf := fun s => if s = 1 then some 0 else if s = 2 then some 1 else none
    childrenOf := fun s => if s = 0 then [1] else if s = 1 then [2] else []
    depthIndexOf := fun b s =>
      if b = 0 ∧ s = 0 then some 0
      else if b = 0 ∧ s = 1 then some 1
      else if b = 1 ∧ s = 2 then some 2
      else none
    branchStartDepth := fun b => if b = 0 then 0 else 2
    branchEndDepth := fun b => if b = 0 then 1 else 2
    stateName := fun _ => ""
    getBranchName := fun _ => ""
    getState := fun s => s }

/-- Concrete source-extraction prop used with `exG`. -/
def exSrc : Int → Int := fun s => s

/-- Three concrete bookmarks named A, B, C without annotations. -/
def exBookmarks : List Bookmark :=
  [{ stateId := 11, name := "A", annot := none },
   { stateId := 12, name := "B", annot := none },
   { stateId := 13, name := "C", annot := none }]

/-! ### Shared helper lemmas -/

/-- The ids of the pre-filter branch entries are exactly the sorted
branch list. -/
theorem getBranchListPre_map_id (g : DagGraph) (cp : List Int)
    (p : Option Int) :
    (getBranchListPre g cp p).map (fun e => e.id) = sortBranches g.branches := by
  show List.map _ (List.map _ (sortBranches g.branches)) = _
  rw [List.map_map]
  exact List.map_id _

/-- The sorted branch list is a permutation of the branch list. -/
theorem sortBranches_perm (l : List Int) : (sortBranches l).Perm l :=
  (List.reverse_perm _).trans (List.perm_insertionSort _ _)

/-! ### Claim theorems -/

/-- C3: for every graph, commit path, bookmark list and pinned state,
`getStateList` returns a sequence whose length equals the commit path's
length and whose reversal yields exactly the commit path's state-id
order, i.e. the output is ordered most-recent-first. -/
theorem getStateList_ordering (g : DagGraph) (cp : List Int)
    (bms : List Bookmark) (hso : Option Int) (f : Int → Int) :
    (getStateList g cp bms hso f).length = cp.length ∧
    (getStateList g cp bms hso f).reverse.map (fun e => e.id) = cp := by
  constructor
  · simp [getStateList]
  · show (List.reverse (List.reverse _)).map _ = _
    rw [List.reverse_reverse, List.map_map]
    exact List.enum_map_snd cp

/-- C2: for every entry `e` of the state list, `e.isSuccessor` is true
iff the pinned state is a valid (non-null, numeric) id and the parent of
`e` equals the pinned state; when the pinned state is null, `isSuccessor`
is false for every entry. -/
theorem getStateList_isSuccessor (g : DagGraph) (cp : List Int)
    (bms : List Bookmark) (hso : Option Int) (f : Int → Int) :
    (∀ e ∈ getStateList g cp bms hso f,
        e.isSuccessor = true ↔ hso.isSome = true ∧ g.parentOf e.id = hso) ∧
    (hso = none →
      ∀ e ∈ getStateList g cp bms hso f, e.isSuccessor = false) := by
  constructor
  · intro e he
    rw [getStateList] at he
    simp only [List.mem_reverse, List.mem_map] at he
    obtain ⟨pr, _, rfl⟩ := he
    show (isNumber hso && (g.parentOf pr.2 == hso)) = true ↔
      hso.isSome = true ∧ g.parentOf pr.2 = hso
    simp [isNumber]
  · intro hn e he
    subst hn
    rw [getStateList] at he
    simp only [List.mem_reverse, List.mem_map] at he
    obtain ⟨pr, _, rfl⟩ := he
    show (isNumber none && (g.parentOf pr.2 == none)) = false
    rfl

/-- C1 (amended): when the pinned-state input is JS-falsy (null or the
state id 0) the branch-list projection performs no filtering and yields
one entry per branch in `branches`; when it is JS-truthy (a non-null
number other than 0), exactly the branch entries that are the current
branch, or have a resolvable `pinnedStateIndex`, or a resolvable
`successorDepth`, appear. -/
theorem getBranchList_filtering (g : DagGraph) (cp : List Int)
    (p : Option Int) :
    (jsTruthy p = false →
        getBranchList g cp p = getBranchListPre g cp p ∧
        ((getBranchListPre g cp p).map (fun e => e.id)).Perm g.branches) ∧
    (jsTruthy p = true →
        ∀ e, e ∈ getBranchList g cp p ↔
          e ∈ getBranchListPre g cp p ∧
            (e.active = true ∨ e.pinnedStateIndex.isSome = true ∨
              e.successorDepth.isSome = true)) := by
  constructor
  · intro h
    constructor
    · rw [getBranchList]
      apply List.filter_eq_self.mpr
      intro a _
      simp [h]
    · rw [getBranchListPre_map_id]
      exact sortBranches_perm g.branches
  · intro h e
    rw [getBranchList, List.mem_filter]
    simp [h, or_assoc]

/-- Witness for C1 (amended), at the concrete graph `exG` with nothing
pinned: no filtering, and one entry per branch. -/
theorem getBranchList_filtering_witness :
    getBranchList exG [0, 1] none = getBranchListPre exG [0, 1] none ∧
    ((getBranchListPre exG [0, 1] none).map (fun e => e.id)).Perm
      exG.branches :=
  (getBranchList_filtering exG [0, 1] none).1 rfl

/-- Counterexample to C1 as stated: pinning state id 0 — a valid
non-null numeric id, so `isNumber` accepts it — disables the filter
entirely, because the source tests `!pinnedState` (JS truthiness) rather
than `isNumber(pinnedState)`. At `exG` with pinned state 0, branch 1 is
not the current branch and has neither a resolvable `pinnedStateIndex`
nor a resolvable `successorDepth`, yet its entry is returned; the
filtering the claim mandates would keep only branch 0. -/
theorem getBranchList_pinned_zero_counterexample :
    isNumber (some 0) = true ∧
    (getBranchList exG [0, 1] (some 0)).map
        (fun e => (e.id, e.active, e.pinnedStateIndex, e.successorDepth)) =
      [(1, false, none, none), (0, true, some 0, some 1)] ∧
    ((getBranchListPre exG [0, 1] (some 0)).filter fun e =>
        e.active || e.pinnedStateIndex.isSome ||
          e.successorDepth.isSome).map (fun e => e.id) = [0] := by
  refine ⟨rfl, ?_, ?_⟩ <;> rfl

/-- C6: for a duplicate-free branch-id list, the branch entries produced
before filtering are sorted strictly descending by numeric branch id. -/
theorem getBranchListPre_sorted_desc (g : DagGraph) (cp : List Int)
    (p : Option Int) (h : g.branches.Nodup) :
    ((getBranchListPre g cp p).map (fun e => e.id)).Pairwise
      (fun a b => b < a) := by
  rw [getBranchListPre_map_id, sortBranches]
  rw [List.pairwise_reverse]
  have hsorted : (g.branches.insertionSort (fun a b => a ≤ b)).Pairwise
      (fun a b : Int => a ≤ b) :=
    List.sorted_insertionSort _ g.branches
  have hnodup : (g.branches.insertionSort (fun a b => a ≤ b)).Pairwise
      (fun a b : Int => a ≠ b) :=
    (List.perm_insertionSort _ g.branches).symm.nodup h
  exact (hsorted.and hnodup).imp fun hab => lt_of_le_of_ne hab.1 hab.2

/-- Witness for C6 at the concrete graph `exG`, whose branch ids `[0, 1]`
are duplicate-free. -/
theorem getBranchListPre_sorted_desc_witness :
    ((getBranchListPre exG [0, 1] none).map (fun e => e.id)).Pairwise
      (fun a b => b < a) :=
  getBranchListPre_sorted_desc exG [0, 1] none (by decide)

/-- Witness for C2 at the concrete graph `exG` with nothing pinned: the
state-list entry for state 0 has `isSuccessor = false`. -/
theorem getStateList_isSuccessor_witness :
    ({ id := 0, source := 0, label := "", active := false, pinned := false,
       isSuccessor := false, continuationActive := false,
       branchType := "current", bookmarked := false,
       continuationCount := 1 } : StateEntry).isSuccessor = false :=
  (getStateList_isSuccessor exG [0, 1] [] none exSrc).2 rfl _ (by decide)

/-- C4: for a valid playback index into the bookmark list,
`renderPlayback` computes `isLastSlide` true exactly when the index is
`bookmarks.length - 1`, and binds the forward transport action to the
exit-playback command (`onPlayBookmarkStory`) exactly on the last slide,
and to `onNextBookmark` otherwise. -/
theorem renderPlayback_isLastSlide (bms : List Bookmark) (i : Int)
    (h0 : 0 ≤ i) (h1 : i.toNat < bms.length) :
    (renderPlayback bms i).map (fun v => v.isLastSlide) =
      some (decide (i = (bms.length : Int) - 1)) ∧
    (renderPlayback bms i).map (fun v => v.forwardAction) =
      some (if i = (bms.length : Int) - 1 then
        TransportAction.onPlayBookmarkStory else
        TransportAction.onNextBookmark) := by
  rw [renderPlayback, dif_pos ⟨h0, h1⟩]
  constructor
  · simp
  · simp only [Option.map_some]
    by_cases h : i = (bms.length : Int) - 1 <;> simp [h]

/-- Witness for C4: with the three bookmarks A, B, C and playback index
2, `isLastSlide` is true and the forward action is the exit-playback
command. -/
theorem renderPlayback_isLastSlide_witness :
    (renderPlayback exBookmarks 2).map (fun v => v.isLastSlide) =
      some (decide ((2 : Int) = ((exBookmarks.length : Int) - 1))) ∧
    (renderPlayback exBookmarks 2).map (fun v => v.forwardAction) =
      some (if (2 : Int) = (exBookmarks.length : Int) - 1 then
        TransportAction.onPlayBookmarkStory else
        TransportAction.onNextBookmark) :=
  renderPlayback_isLastSlide exBookmarks 2 (by decide) (by decide)

/-- C8: for the bookmark at a valid playback index, the slide text is
the bookmark's `data.annotation` when that is JS-truthy, else the
bookmark's name when that is JS-truthy, else the fixed placeholder
string, in that priority order. -/
theorem renderPlayback_slideText (bms : List Bookmark) (i : Int)
    (b : Bookmark) (h0 : 0 ≤ i) (h1 : i.toNat < bms.length)
    (hb : bms.get ⟨i.toNat, h1⟩ = b) :
    (∀ a, b.annot = some a → a ≠ "" →
        (renderPlayback bms i).map (fun v => v.slideText) = some a) ∧
    ((b.annot = none ∨ b.annot = some "") → b.name ≠ "" →
        (renderPlayback bms i).map (fun v => v.slideText) = some b.name) ∧
    ((b.annot = none ∨ b.annot = some "") → b.name = "" →
        (renderPlayback bms i).map (fun v => v.slideText) =
          some "No Slide Data") := by
  rw [renderPlayback, dif_pos ⟨h0, h1⟩]
  replace hb : bms[i.toNat] = b := hb
  refine ⟨?_, ?_, ?_⟩
  · intro a ha hne
    simp [hb, jsOrStr, ha, hne]
  · rintro (ha | ha) hne <;> simp [hb, jsOrStr, jsOrStr2, ha, hne]
  · rintro (ha | ha) hne <;> simp [hb, jsOrStr, jsOrStr2, ha, hne]

/-- Witness for C8: a single bookmark whose annotation is present and
non-empty yields that annotation as the slide text. -/
theorem renderPlayback_slideText_witness :
    (renderPlayback [{ stateId := 1, name := "A", annot := some "note" }]
        0).map (fun v => v.slideText) = some "note" :=
  (renderPlayback_slideText
      [{ stateId := 1, name := "A", annot := some "note" }] 0
      { stateId := 1, name := "A", annot := some "note" }
      (by decide) (by decide) rfl).1 "note" rfl (by decide)

/-- Observer for the missing-collaborator-handler error of
`onLoadClicked`. -/
def isMissingHandlerError : Except LoadError Int → Bool
  | .error .missingCollaboratorHandler => true
  | _ => false

/-- C9: invoking the load operation with the `onLoadHistory` handler
absent raises the missing-collaborator-handler error; with any handler
present, that error is never raised (the operation either succeeds or
raises the distinct invalid-load-result error). -/
theorem onLoadClicked_missing_handler :
    onLoadClicked none = Except.error LoadError.missingCollaboratorHandler ∧
    ∀ handler : Unit → Option Int,
      isMissingHandlerError (onLoadClicked (some handler)) = false := by
  refine ⟨rfl, ?_⟩
  intro handler
  rw [onLoadClicked]
  cases handler () <;> rfl

/-- C5: dispatching the highlight-successors action with the same state
id twice in a row, starting from a state where that id was not already
pinned, leaves the component state with `highlightSuccessorsOf = null`
(all other fields unchanged), so the downstream state-list and
branch-list projections equal the unpinned-case outputs. -/
theorem reduce_toggle_clears (s : ComponentState) (x : Int)
    (h : s.highlightSuccessorsOf ≠ some x) :
    reduce (reduce s (Action.highlightSuccessors x))
        (Action.highlightSuccessors x) =
      { s with highlightSuccessorsOf := none } ∧
    ∀ (g : DagGraph) (cp : List Int) (bms : List Bookmark) (f : Int → Int),
      getStateList g cp bms
          (reduce (reduce s (Action.highlightSuccessors x))
            (Action.highlightSuccessors x)).highlightSuccessorsOf f =
        getStateList g cp bms none f ∧
      getBranchList g cp
          (reduce (reduce s (Action.highlightSuccessors x))
            (Action.highlightSuccessors x)).highlightSuccessorsOf =
        getBranchList g cp none := by
  have h1 : reduce s (Action.highlightSuccessors x) =
      { s with highlightSuccessorsOf := some x } := by
    simp [reduce, h]
  have h2 : reduce { s with highlightSuccessorsOf := some x }
      (Action.highlightSuccessors x) =
      { s with highlightSuccessorsOf := none } := by
    simp [reduce]
  refine ⟨by rw [h1, h2], ?_⟩
  intro g cp bms f
  rw [h1, h2]
  exact ⟨rfl, rfl⟩

/-- Witness for C5: from the initial component state (nothing pinned),
pinning state 5 twice returns the state to the unpinned value. -/
theorem reduce_toggle_clears_witness :
    reduce (reduce INITIAL_STATE (Action.highlightSuccessors 5))
        (Action.highlightSuccessors 5) =
      { INITIAL_STATE with highlightSuccessorsOf := none } :=
  (reduce_toggle_clears INITIAL_STATE 5 (by decide)).1

/-- C10: the reducer changes only the field designated by the action's
type — `selectMainView` changes only `mainView`,
`toggleBranchContainer` changes only `branchContainerExpanded`,
`highlightSuccessors` changes only `highlightSuccessorsOf` — and for an
action of any other type it returns the input state unchanged. -/
theorem reduce_frame (s : ComponentState) :
    (∀ p, (reduce s (Action.selectMainView p)).branchContainerExpanded =
        s.branchContainerExpanded ∧
      (reduce s (Action.selectMainView p)).highlightSuccessorsOf =
        s.highlightSuccessorsOf) ∧
    ((reduce s Action.toggleBranchContainer).mainView = s.mainView ∧
      (reduce s Action.toggleBranchContainer).highlightSuccessorsOf =
        s.highlightSuccessorsOf) ∧
    (∀ x, (reduce s (Action.highlightSuccessors x)).mainView = s.mainView ∧
      (reduce s (Action.highlightSuccessors x)).branchContainerExpanded =
        s.branchContainerExpanded) ∧
    (∀ t, reduce s (Action.other t) = s) := by
  refine ⟨fun p => ⟨rfl, rfl⟩, ⟨rfl, rfl⟩, fun x => ⟨?_, ?_⟩, fun t => rfl⟩ <;>
    · rw [reduce]
      split <;> rfl

/-- Threading a graph-preserving read over a list leaves the graph
unchanged and collects the pointwise read results. -/
theorem mapOp_eq {α : Type} (fo : Int → GraphOp α)
    (hf : ∀ a g, (fo a g).2 = g) :
    ∀ (l : List Int) (g : DagGraph),
      mapOp fo l g = (l.map (fun a => (fo a g).1), g) := by
  intro l
  induction l with
  | nil => intro g; rfl
  | cons x xs ih =>
      intro g
      simp only [mapOp]
      rw [hf x g, ih g]
      simp

/-- Specialization of `mapOp_eq` to the per-commit `branchOf` reads. -/
theorem mapOp_readBranchOf (l : List Int) (g : DagGraph) :
    mapOp readBranchOf l g = (l.map (fun a => g.branchOf a), g) := by
  rw [mapOp_eq readBranchOf (fun _ _ => rfl)]
  rfl

/-- Specialization of `mapOp_eq` to the per-branch start-depth reads. -/
theorem mapOp_readBranchStartDepth (l : List Int) (g : DagGraph) :
    mapOp readBranchStartDepth l g =
      (l.map (fun a => g.branchStartDepth a), g) := by
  rw [mapOp_eq readBranchStartDepth (fun _ _ => rfl)]
  rfl

/-- Specialization of `mapOp_eq` to the per-branch end-depth reads. -/
theorem mapOp_readBranchEndDepth (l : List Int) (g : DagGraph) :
    mapOp readBranchEndDepth l g =
      (l.map (fun a => g.branchEndDepth a), g) := by
  rw [mapOp_eq readBranchEndDepth (fun _ _ => rfl)]
  rfl

/-- Specialization of `mapOp_eq` to the per-commit read bundle issued by
`getStateListOp`. -/
theorem mapOp_stateReads (l : List Int) (g : DagGraph) :
    mapOp (fun id => fun g =>
      let sg := readGetState id g
      let ng := readStateName id sg.2
      let pg := readParentOf id ng.2
      let cg := readChildrenOf id pg.2
      ((sg.1, ng.1, pg.1, cg.1.length), cg.2)) l g =
    (l.map (fun id => (g.getState id, g.stateName id, g.parentOf id,
      (g.childrenOf id).length)), g) := by
  rw [mapOp_eq _ (fun _ _ => rfl)]
  rfl

/-- Folding the successor hash over the commit children zipped with
their branches equals folding over the children alone. -/
theorem selected_foldl_eq (br : Int → Int) :
    ∀ (children : List Int) (acc : Int → Option Int),
      (children.zip (children.map br)).foldl
        (fun acc cb => fun b => if b = cb.2 then some cb.1 else acc b)
        acc =
      children.foldl
        (fun acc child => fun b =>
          if b = br child then some child else acc b) acc := by
  intro children
  induction children with
  | nil => intro acc; rfl
  | cons c cs ih =>
      intro acc
      simp only [List.map_cons, List.zip_cons_cons, List.foldl_cons]
      exact ih _

/-- Folding the maximum lane length over zipped per-branch depth reads
equals the direct per-branch fold. -/
theorem maxDepth_foldl_eq (sd ed : Int → Int) (l : List Int) :
    (((l.map sd).zip (l.map ed)).map (fun se => se.2 - se.1)).foldl
        max 0 =
      l.foldl (fun m b => max m (ed b - sd b)) 0 := by
  rw [List.zip_map', List.map_map, List.foldl_map]
  rfl

/-- Zipping an enumerated list with a mapped copy of the underlying
list pairs each enumerated element with its image. -/
theorem enumFrom_zip_map {α : Type} (f : Int → α) :
    ∀ (l : List Int) (n : Nat),
      (l.enumFrom n).zip (l.map f) =
        (l.enumFrom n).map (fun q => (q, f q.2)) := by
  intro l
  induction l with
  | nil => intro n; rfl
  | cons x xs ih =>
      intro n
      simp only [List.enumFrom_cons, List.map_cons, List.zip_cons_cons]
      rw [ih]

/-- Restatement of `enumFrom_zip_map` for `List.enum`. -/
theorem enum_zip_map {α : Type} (f : Int → α) (l : List Int) :
    l.enum.zip (l.map f) = l.enum.map (fun q => (q, f q.2)) :=
  enumFrom_zip_map f l 0

/-- C7: the projection layer only reads the history graph: running the
state-threaded embeddings of `getBranchList` and `getStateList`, in
which every graph access is an explicit operation returning the graph it
leaves behind, leaves the input graph unchanged — and computes exactly
the same view models as the pure projections. -/
theorem projection_reads_only (g : DagGraph) (cp : List Int)
    (p : Option Int) (bms : List Bookmark) (f : Int → Int) :
    (getBranchListOp cp p g).2 = g ∧
    (getBranchListOp cp p g).1 = getBranchList g cp p ∧
    (getStateListOp cp bms p f g).2 = g ∧
    (getStateListOp cp bms p f g).1 = getStateList g cp bms p f := by
  refine ⟨?_, ?_, ?_, ?_⟩
  · cases p <;>
      · simp only [getBranchListOp, mapOp_readBranchOf,
          mapOp_readBranchStartDepth, mapOp_readBranchEndDepth]
        rfl
  · cases p <;>
      · simp only [getBranchListOp, mapOp_readBranchOf,
          mapOp_readBranchStartDepth, mapOp_readBranchEndDepth,
          selected_foldl_eq, maxDepth_foldl_eq]
        rfl
  · simp only [getStateListOp, mapOp_stateReads]
    rfl
  · simp only [getStateListOp, mapOp_stateReads, enum_zip_map,
      List.map_map]
    rfl

end DagHistory
